import Mathlib

/-!
Verification of the strategy-scored recommendation engine of the autoshoper
repository.

The engine lives in the recommendation service
(`src/api/services/geminiDataTransformer.js`, second document: the
recommendation service sharing the file), the recommendation controller
(`src/api/controllers/recommendationController.ts`) and the candidate filter
(`src/unnamed/part_007`, `validateAndFilterProducts`).

Number model: the source runs on JS numbers.  Finite values are modelled as
rationals (`ℚ`).  The single operation in the engine that can produce a
non-finite value (NaN or Infinity) is the division
`sentimentDistribution.positive / totalComments`; a non-finite value is
modelled as `none : Option ℚ` and propagates through the score computation.
-/

namespace Autoshoper

open List

attribute [local semireducible] Rat.mul Rat.inv Rat.add Rat.sub Rat.ofScientific

/-- JS `Math.round`: nearest integer, halves toward positive infinity,
so `Math.round x = ⌊x + 0.5⌋`. -/
def jsRound (q : ℚ) : ℤ := ⌊q + 1/2⌋

/-- Rounding to two decimal places as the source does it: `Math.round(x * 100) / 100`. -/
def round2 (q : ℚ) : ℚ := (jsRound (q * 100) : ℚ) / 100

/-- JS division.  Dividing by zero yields NaN (for `0/0`) or an infinity, never a
finite number; any non-finite result is modelled as `none`. -/
def jsDiv (a b : ℚ) : Option ℚ := if b = 0 then none else some (a / b)

/-- The method `toLowerCase` of JS strings (ASCII-adequate model). -/
def jsToLower (s : String) : String := String.mk (s.data.map Char.toLower)

/-- The method `includes` of JS strings: substring containment. -/
def jsIncludes (s target : String) : Bool := decide (target.data <:+: s.data)

/-- The field `sentimentDistribution` of a `CommentAnalysis`
(`src/src/types/comment.ts`). -/
structure SentimentDistribution where
  positive : ℚ
  negative : ℚ
  neutral : ℚ
  deriving DecidableEq

/-- One entry of `topKeywords` of a `CommentAnalysis`. -/
structure TopKeyword where
  keyword : String
  frequency : ℚ
  deriving DecidableEq

/-- One entry of `qualityIndicators` of a `CommentAnalysis`. -/
structure QualityIndicator where
  indicator : String
  mentions : ℚ
  deriving DecidableEq

/-- The interface `CommentAnalysis` of `src/src/types/comment.ts` (the
ReviewAggregate of the spec). -/
structure CommentAnalysis where
  productId : String
  totalComments : ℚ
  averageRating : ℚ
  sentimentDistribution : SentimentDistribution
  topKeywords : List TopKeyword
  qualityIndicators : List QualityIndicator
  commonIssues : List String
  positiveAspects : List String
  deriving DecidableEq

/-- The interface `Product` of `src/api/types/product` restricted to the fields the
recommendation engine reads (`id`, `brand`, `price`, plus the descriptive fields). -/
structure Product where
  id : String
  name : String
  price : ℚ
  brand : String
  category : String
  rating : ℚ
  reviewCount : ℚ
  deriving DecidableEq

/-- The interface `Recommendation` of `src/src/types/strategy.ts`.  The `score`
field holds a JS number which may be non-finite (`none`), see the number model. -/
structure Recommendation where
  productId : String
  score : Option ℚ
  ranking : ℕ
  reasoning : List String
  confidence : ℚ
  pros : List String
  cons : List String
  deriving DecidableEq

/-- The function `countKeywordMentions` (recommendation service, lines 362-366):
keep the keyword entries whose lower-cased text contains one of the target words,
then sum their frequencies. -/
def countKeywordMentions (keywords : List TopKeyword) (targetWords : List String) : ℚ :=
  (keywords.filter fun k =>
      targetWords.any fun word => jsIncludes (jsToLower k.keyword) word).foldl
    (fun sum k => sum + k.frequency) 0

/-- The fixed brand table of `getBrandScore` (lines 352-358). -/
def brandScores : List (String × ℚ) :=
  [("Apple", 0.95), ("Samsung", 0.9), ("Google", 0.85), ("OnePlus", 0.8), ("Xiaomi", 0.7)]

/-- The function `getBrandScore`: `brandScores[brand] || 0.5`.  Every value of the
table is nonzero, hence truthy, so the lookup result is used whenever the brand is
in the table. -/
def getBrandScore (brand : String) : ℚ := (brandScores.lookup brand).getD 0.5

/-- The function `calculateFancyScore` (lines 287-307). -/
def calculateFancyScore (product : Product) (analysis : CommentAnalysis) : ℚ :=
  let brandScore := getBrandScore product.brand
  let premiumScore :=
    countKeywordMentions analysis.topKeywords
      ["premium", "luxury", "high-end", "premium quality"] / 100
  let qualityScore :=
    match analysis.qualityIndicators with
    | [] => 0
    | q :: _ => q.mentions / 500
  let designScore :=
    countKeywordMentions analysis.topKeywords
      ["design", "beautiful", "elegant", "stylish"] / 100
  round2 (brandScore * 0.3 + min premiumScore 1 * 0.25 + min qualityScore 1 * 0.25 +
    min designScore 1 * 0.2)

/-- The function `calculateCostEffectiveScore` (lines 309-331).  The long-term
satisfaction term divides by `totalComments` without a guard; with
`totalComments = 0` the division is non-finite and the whole score is non-finite
(`none`). -/
def calculateCostEffectiveScore (product : Product) (analysis : CommentAnalysis) :
    Option ℚ :=
  let priceScore := max 0 ((2000 - product.price) / 2000)
  let qualityScore := analysis.averageRating / 5
  let valueScore := (priceScore + qualityScore) / 2
  let durabilityScore :=
    countKeywordMentions analysis.topKeywords
      ["durable", "long-lasting", "reliable", "sturdy"] / 100
  let worthItScore :=
    countKeywordMentions analysis.topKeywords
      ["worth it", "good value", "great value", "worth every penny"] / 50
  (jsDiv analysis.sentimentDistribution.positive analysis.totalComments).map
    fun longTermScore =>
      round2 (valueScore * 0.4 + min durabilityScore 1 * 0.3 + min worthItScore 1 * 0.2 +
        longTermScore * 0.1)

/-- The function `calculatePricePriorityScore` (lines 333-349). -/
def calculatePricePriorityScore (product : Product) (analysis : CommentAnalysis) : ℚ :=
  let priceScore := max 0 ((1500 - product.price) / 1500)
  let qualityScore :=
    if analysis.averageRating ≥ 4 then 1 else analysis.averageRating / 4
  let issueScore := 1 - (analysis.commonIssues.length : ℚ) / 10
  round2 (priceScore * 0.5 + qualityScore * 0.3 + max 0 issueScore * 0.2)

/-- The function `calculateStrategyScore` (lines 274-285).  The strategy is a plain
string at run time; any variant other than the three known ones falls into the
`default` branch and scores 0. -/
def calculateStrategyScore (product : Product) (analysis : CommentAnalysis)
    (strategy : String) : Option ℚ :=
  match strategy with
  | "fancy" => some (calculateFancyScore product analysis)
  | "cost-effective" => calculateCostEffectiveScore product analysis
  | "price-priority" => some (calculatePricePriorityScore product analysis)
  | _ => some 0

/-- The sub-score weights used by `calculateFancyScore` (0.30 brand reputation,
0.25 premium features, 0.25 quality indicators, 0.20 design aesthetics). -/
def fancyWeights : List ℚ := [0.3, 0.25, 0.25, 0.2]

/-- The sub-score weights used by `calculateCostEffectiveScore` (0.40 value ratio,
0.30 durability, 0.20 worth-it mentions, 0.10 long-term satisfaction). -/
def costEffectiveWeights : List ℚ := [0.4, 0.3, 0.2, 0.1]

/-- The sub-score weights used by `calculatePricePriorityScore` (0.50 price
competitiveness, 0.30 basic quality, 0.20 issue avoidance). -/
def pricePriorityWeights : List ℚ := [0.5, 0.3, 0.2]

/-- Stand-in for the JS number-to-string coercion inside the template literals of
`generateReasoning`; no claim in this file depends on the rendered digits. -/
def numStr (q : ℚ) : String := toString q

/-- The function `generateReasoning` (lines 368-390).  The switch has no default
case, so an unknown strategy yields the empty list. -/
def generateReasoning (product : Product) (analysis : CommentAnalysis)
    (strategy : String) : List String :=
  match strategy with
  | "fancy" =>
      ["Premium brand reputation: " ++ product.brand,
       "High-quality build with " ++
         numStr (match analysis.qualityIndicators with | [] => 0 | q :: _ => q.mentions) ++
         " positive mentions",
       "Elegant design praised by users"]
  | "cost-effective" =>
      ["Excellent value at $" ++ numStr product.price ++ " with " ++
         numStr analysis.averageRating ++ "/5 rating",
       "Durable and reliable based on user feedback",
       "Worth the investment for long-term use"]
  | "price-priority" =>
      ["Most affordable option at $" ++ numStr product.price,
       "Maintains quality with " ++ numStr analysis.averageRating ++ "/5 rating",
       "Good basic functionality without premium markup"]
  | _ => []

/-- JS `a || b` where `a` is an array value: an array, even the empty one, is
truthy, so the left operand is always the result and the fallback is unreachable. -/
def jsArrayOr (a _fallback : List String) : List String := a

/-- The function `generatePros` (lines 392-394):
`analysis.positiveAspects.slice(0, 3) || [generic list]`. -/
def generatePros (analysis : CommentAnalysis) : List String :=
  jsArrayOr (analysis.positiveAspects.take 3) ["Good overall quality", "Reliable performance"]

/-- The function `generateCons` (lines 396-398):
`analysis.commonIssues.slice(0, 2) || [generic list]`. -/
def generateCons (analysis : CommentAnalysis) : List String :=
  jsArrayOr (analysis.commonIssues.take 2) ["Minor issues reported"]

/-- The function `calculateConfidence` (lines 400-407). -/
def calculateConfidence (analysis : CommentAnalysis) : ℚ :=
  let reviewScore := min (analysis.totalComments / 1000) 1
  let ratingScore := analysis.averageRating / 5
  round2 (reviewScore * 0.6 + ratingScore * 0.4)

/-- The comparator `(a, b) => b.score - a.score` of `recommendations.sort`
(line 266), as the relation "a is placed strictly before b", i.e. the comparator
value is negative.  When a score is non-finite the comparator value is NaN, which
`Array.prototype.sort` treats as 0 (equal), so such a pair never compares strictly. -/
def scoreBefore (a b : Recommendation) : Bool :=
  match a.score, b.score with
  | some x, some y => decide (y < x)
  | _, _ => false

/-- Insertion step of the stable descending sort: walk the already sorted list and
place the new record before the first record it strictly beats, hence after every
record of equal score that was inserted earlier. -/
def insertByScore (r : Recommendation) : List Recommendation → List Recommendation
  | [] => [r]
  | s :: rest => if scoreBefore r s then r :: s :: rest else s :: insertByScore r rest

/-- The sort `recommendations.sort((a, b) => b.score - a.score)` (line 266):
`Array.prototype.sort` is stable, modelled as a stable insertion sort processing
the records in input order. -/
def jsSortByScoreDesc (recs : List Recommendation) : List Recommendation :=
  recs.foldl (fun sorted r => insertByScore r sorted) []

/-- Helper of `assignRankings`: set the ranking of the records to `i, i+1, ...` in
list order. -/
def assignRankingsFrom (i : ℕ) : List Recommendation → List Recommendation
  | [] => []
  | r :: rest => { r with ranking := i } :: assignRankingsFrom (i + 1) rest

/-- The loop `recommendations.forEach((rec, index) => rec.ranking = index + 1)`
(lines 267-269). -/
def assignRankings (recs : List Recommendation) : List Recommendation :=
  assignRankingsFrom 1 recs

/-- Lines 265-269 of `generateRecommendations`: sort descending by score, then
assign dense 1-based rankings by position. -/
def sortAndRank (recs : List Recommendation) : List Recommendation :=
  assignRankings (jsSortByScoreDesc recs)

/-- The record pushed for one resolved product id inside the loop of
`generateRecommendations` (lines 249-262); `ranking` is 0 until the final sort
assigns it. -/
def mkRecommendation (productId : String) (product : Product)
    (analysis : CommentAnalysis) (strategy : String) : Recommendation :=
  { productId := productId
    score := calculateStrategyScore product analysis strategy
    ranking := 0
    reasoning := generateReasoning product analysis strategy
    confidence := calculateConfidence analysis
    pros := generatePros analysis
    cons := generateCons analysis }

/-- The function `generateRecommendations` (lines 235-272).  The two resolvers
`getProductById` and `getCommentAnalysis` are the external collaborators of the
spec, passed as parameters; an id for which either resolves to `none` is skipped
(`if (!product || !commentAnalysis) continue`). -/
def generateRecommendations (productIds : List String)
    (getProductById : String → Option Product)
    (getCommentAnalysis : String → Option CommentAnalysis)
    (strategy : String) : List Recommendation :=
  sortAndRank (productIds.filterMap fun productId =>
    match getProductById productId, getCommentAnalysis productId with
    | some product, some analysis =>
        some (mkRecommendation productId product analysis strategy)
    | _, _ => none)

/-- The request body read by the recommendation controller.  `products = none`
models a missing or non-array `products` field; a missing or otherwise falsy
`strategy` is the empty string. -/
structure RecommendationRequest where
  products : Option (List String)
  strategy : String
  deriving DecidableEq

/-- The controller `getRecommendations`
(`src/api/controllers/recommendationController.ts`, lines 5-23): reject a
missing, non-array or empty `products` and a falsy `strategy`, then delegate to
`generateRecommendations`.  There is no membership check of the strategy against
the three known variants. -/
def getRecommendations (req : RecommendationRequest)
    (getProductById : String → Option Product)
    (getCommentAnalysis : String → Option CommentAnalysis) :
    Except String (List Recommendation) :=
  match req.products with
  | none => .error "Products array is required"
  | some ids =>
      if ids.isEmpty then .error "Products array is required"
      else if req.strategy = "" then .error "Strategy is required"
      else .ok (generateRecommendations ids getProductById getCommentAnalysis req.strategy)

/-- A raw candidate product as returned by the discovery source, before
validation (`src/unnamed/part_007`).  An optional numeric field is `none` when it
is missing or not a number; string fields that the code only tests for truthiness
are plain strings, with the empty string as the falsy value. -/
structure RawProduct where
  name : String
  price : Option ℚ
  brand : String
  category : String
  rating : Option ℚ
  imageUrl : Option String
  productUrl : Option String
  reviewCount : Option ℚ
  sourcePlatform : Option String
  description : Option String
  features : List String
  deriving DecidableEq

/-- The `SearchStrategy` of `src/unnamed/part_007` (lines 21-29): variant tag plus
the optional constraint fields. -/
structure SearchStrategy where
  type : String
  maxPrice : Option ℚ
  minPrice : Option ℚ
  minRating : Option ℚ
  preferredBrands : Option (List String)
  excludedBrands : Option (List String)
  deriving DecidableEq

/-- The normalized `GeminiProduct` produced for every surviving candidate. -/
structure GeminiProduct where
  name : String
  price : ℚ
  brand : String
  category : String
  imageUrl : String
  productUrl : String
  rating : ℚ
  reviewCount : ℚ
  sourcePlatform : String
  description : String
  features : List String
  deriving DecidableEq

/-- JS truthiness of an optional numeric field: missing (or non-numeric) and 0 are
falsy, every other number is truthy. -/
def numTruthy : Option ℚ → Bool
  | none => false
  | some v => decide (v ≠ 0)

/-- The `(x || 0)` idiom on an optional numeric field. -/
def numOrZero (o : Option ℚ) : ℚ := o.getD 0

/-- The filter predicate of `validateAndFilterProducts` (`src/unnamed/part_007`,
lines 148-187).  Each early `return false` of the source is one clause of the
chain; a truthiness guard such as `strategy.maxPrice && ...` skips the check when
the constraint is missing or 0. -/
def survivesFilter (strategy : SearchStrategy) (product : RawProduct) : Bool :=
  -- if (!product.name || !product.price || !product.brand || !product.category)
  if product.name = "" ∨ numTruthy product.price = false ∨ product.brand = "" ∨
      product.category = "" then false
  -- if (typeof product.price !== 'number' || product.price < 0)
  -- (a missing or non-numeric price is `none` and was already rejected as falsy)
  else if numOrZero product.price < 0 then false
  -- if (strategy.maxPrice && product.price > strategy.maxPrice)
  else if numTruthy strategy.maxPrice = true ∧
      numOrZero strategy.maxPrice < numOrZero product.price then false
  -- if (strategy.minPrice && product.price < strategy.minPrice)
  else if numTruthy strategy.minPrice = true ∧
      numOrZero product.price < numOrZero strategy.minPrice then false
  -- if (product.rating && (typeof product.rating !== 'number' ||
  --     product.rating < 0 || product.rating > 5))
  else if numTruthy product.rating = true ∧
      (numOrZero product.rating < 0 ∨ 5 < numOrZero product.rating) then false
  -- if (strategy.minRating && (product.rating || 0) < strategy.minRating)
  else if numTruthy strategy.minRating = true ∧
      numOrZero product.rating < numOrZero strategy.minRating then false
  -- if (strategy.preferredBrands?.length && !strategy.preferredBrands.includes(brand))
  else if strategy.preferredBrands.getD [] ≠ [] ∧
      product.brand ∉ strategy.preferredBrands.getD [] then false
  -- if (strategy.excludedBrands?.length && strategy.excludedBrands.includes(brand))
  else if strategy.excludedBrands.getD [] ≠ [] ∧
      product.brand ∈ strategy.excludedBrands.getD [] then false
  else true

/-- The `.map` normalization applied to the surviving candidates (lines 188-201).
The snake-case fallback keys (`image_url` and friends) are alternative spellings
of the same JSON field and are folded into the single optional field here;
`specifications` is not modelled. -/
def normalizeProduct (product : RawProduct) : GeminiProduct :=
  { name := product.name
    price := numOrZero product.price
    brand := product.brand
    category := product.category
    imageUrl := product.imageUrl.getD "https://via.placeholder.com/300x300"
    productUrl := product.productUrl.getD "#"
    rating := numOrZero product.rating
    reviewCount := numOrZero product.reviewCount
    sourcePlatform := product.sourcePlatform.getD "Unknown"
    description := product.description.getD ""
    features := product.features }

/-- The function `validateAndFilterProducts` (lines 141-202): filter, then
normalize, preserving input order. -/
def validateAndFilterProducts (products : List RawProduct)
    (strategy : SearchStrategy) : List GeminiProduct :=
  (products.filter fun product => survivesFilter strategy product).map normalizeProduct

/-- Shape validation exactly as the claim words it: non-empty (truthy) name,
price, brand and category, price a valid non-negative number, and rating, when
present, within the range 0 to 5. -/
def ClaimShapeValid (product : RawProduct) : Prop :=
  product.name ≠ "" ∧ product.brand ≠ "" ∧ product.category ≠ "" ∧
  numTruthy product.price = true ∧ 0 ≤ numOrZero product.price ∧
  ∀ r, product.rating = some r → 0 ≤ r ∧ r ≤ 5

/-- Constraint satisfaction exactly as the claim words it: every constraint that
is set (a `some` value; a non-empty list for the brand lists) must hold. -/
def ClaimMeetsConstraints (strategy : SearchStrategy) (product : RawProduct) : Prop :=
  (∀ m, strategy.maxPrice = some m → numOrZero product.price ≤ m) ∧
  (∀ m, strategy.minPrice = some m → m ≤ numOrZero product.price) ∧
  (∀ m, strategy.minRating = some m → m ≤ numOrZero product.rating) ∧
  (∀ l, strategy.preferredBrands = some l → l ≠ [] → product.brand ∈ l) ∧
  (∀ l, strategy.excludedBrands = some l → l ≠ [] → product.brand ∉ l)

/-- Constraint satisfaction as amended: identical to `ClaimMeetsConstraints`
except that the maximum-price bound is enforced only when `maxPrice` is set AND
nonzero, because the source guards the check with the truthiness of `maxPrice`
and a zero bound is falsy and skipped. -/
def ClaimMeetsConstraintsTruthy (strategy : SearchStrategy) (product : RawProduct) : Prop :=
  (∀ m, strategy.maxPrice = some m → m ≠ 0 → numOrZero product.price ≤ m) ∧
  (∀ m, strategy.minPrice = some m → m ≤ numOrZero product.price) ∧
  (∀ m, strategy.minRating = some m → m ≤ numOrZero product.rating) ∧
  (∀ l, strategy.preferredBrands = some l → l ≠ [] → product.brand ∈ l) ∧
  (∀ l, strategy.excludedBrands = some l → l ≠ [] → product.brand ∉ l)

/-- A strategy of the given variant with every constraint unset. -/
def emptySearchStrategy (t : String) : SearchStrategy :=
  { type := t
    maxPrice := none
    minPrice := none
    minRating := none
    preferredBrands := none
    excludedBrands := none }

/-- Score comparison read as a numeric non-increase: both scores are finite
numbers and the second is at most the first.  A non-finite score is not `≥` (nor
`≤`) any number. -/
def scoreGeB (a b : Recommendation) : Bool :=
  match a.score, b.score with
  | some x, some y => decide (y ≤ x)
  | _, _ => false

/-- Validity of the scorer inputs as the claim states it: non-negative price,
average rating within 0 to 5, and non-negative counts (total comments, positive
sentiment count, keyword frequencies, quality-indicator mentions). -/
def ValidInputs (product : Product) (analysis : CommentAnalysis) : Prop :=
  0 ≤ product.price ∧
  0 ≤ analysis.averageRating ∧ analysis.averageRating ≤ 5 ∧
  0 ≤ analysis.totalComments ∧
  0 ≤ analysis.sentimentDistribution.positive ∧
  (∀ k ∈ analysis.topKeywords, 0 ≤ k.frequency) ∧
  (∀ q ∈ analysis.qualityIndicators, 0 ≤ q.mentions)

/-- A product with price 0, as used by the concrete scorer inputs below. -/
def c1Product : Product :=
  { id := "p", name := "P", price := 0, brand := "NoName", category := "C",
    rating := 5, reviewCount := 1 }

/-- A review aggregate whose positive sentiment count (10) exceeds its total
comment count (1); all fields are valid per `ValidInputs`. -/
def c1Analysis : CommentAnalysis :=
  { productId := "p", totalComments := 1, averageRating := 5,
    sentimentDistribution := { positive := 10, negative := 0, neutral := 0 },
    topKeywords := [{ keyword := "durable", frequency := 100 },
                    { keyword := "worth it", frequency := 50 }],
    qualityIndicators := [], commonIssues := [], positiveAspects := [] }

/-- The product of the zero-comment scenario: price 2000. -/
def c2Product : Product :=
  { id := "p", name := "P", price := 2000, brand := "B", category := "C",
    rating := 0, reviewCount := 0 }

/-- The review aggregate of the zero-comment scenario: `totalComments = 0`,
`averageRating = 0`, no keywords, no sentiment. -/
def c2Analysis : CommentAnalysis :=
  { productId := "p", totalComments := 0, averageRating := 0,
    sentimentDistribution := { positive := 0, negative := 0, neutral := 0 },
    topKeywords := [], qualityIndicators := [], commonIssues := [],
    positiveAspects := [] }

/-- Product resolver for the ranker counterexample: ids `n` and `f` resolve. -/
def c3GetP : String → Option Product := fun i =>
  if i = "n" then
    some { id := "n", name := "N", price := 0, brand := "B", category := "C",
           rating := 0, reviewCount := 0 }
  else if i = "f" then
    some { id := "f", name := "F", price := 0, brand := "B", category := "C",
           rating := 5, reviewCount := 10 }
  else none

/-- Analysis resolver for the ranker counterexample: id `n` has
`totalComments = 0` (its cost-effective score is non-finite), id `f` has a
finite positive score. -/
def c3GetA : String → Option CommentAnalysis := fun i =>
  if i = "n" then
    some { productId := "n", totalComments := 0, averageRating := 0,
           sentimentDistribution := { positive := 0, negative := 0, neutral := 0 },
           topKeywords := [], qualityIndicators := [], commonIssues := [],
           positiveAspects := [] }
  else if i = "f" then
    some { productId := "f", totalComments := 10, averageRating := 5,
           sentimentDistribution := { positive := 10, negative := 0, neutral := 0 },
           topKeywords := [], qualityIndicators := [], commonIssues := [],
           positiveAspects := [] }
  else none

/-- The first output record of the ranker counterexample: non-finite score,
ranking 1. -/
def c3OutN : Recommendation :=
  { productId := "n", score := none, ranking := 1,
    reasoning := ["Excellent value at $0 with 0/5 rating",
                  "Durable and reliable based on user feedback",
                  "Worth the investment for long-term use"],
    confidence := 0, pros := [], cons := [] }

/-- The second output record of the ranker counterexample: finite score 0.5,
ranking 2, placed below the non-finite score. -/
def c3OutF : Recommendation :=
  { productId := "f", score := some (1/2), ranking := 2,
    reasoning := ["Excellent value at $0 with 5/5 rating",
                  "Durable and reliable based on user feedback",
                  "Worth the investment for long-term use"],
    confidence := 41/100, pros := [], cons := [] }

/-- A plain valid product used by the concrete witness inputs. -/
def sampleProduct (i : String) (price : ℚ) : Product :=
  { id := i, name := "Item " ++ i, price := price, brand := "Acme",
    category := "Gadgets", rating := 4, reviewCount := 100 }

/-- A plain valid review aggregate used by the concrete witness inputs. -/
def sampleAnalysis (i : String) (total positive : ℚ) : CommentAnalysis :=
  { productId := i, totalComments := total, averageRating := 4,
    sentimentDistribution := { positive := positive, negative := 0, neutral := 0 },
    topKeywords := [], qualityIndicators := [], commonIssues := ["issue"],
    positiveAspects := ["aspect"] }

/-- A fully valid scorer input (price 100, brand in the table). -/
def w1Product : Product :=
  { id := "w", name := "W", price := 100, brand := "Apple", category := "Phones",
    rating := 4, reviewCount := 200 }

/-- A fully valid review aggregate with positive count below the total. -/
def w1Analysis : CommentAnalysis :=
  { productId := "w", totalComments := 200, averageRating := 4,
    sentimentDistribution := { positive := 150, negative := 30, neutral := 20 },
    topKeywords := [{ keyword := "premium", frequency := 30 }],
    qualityIndicators := [{ indicator := "solid build", mentions := 40 }],
    commonIssues := ["pricey"], positiveAspects := ["nice"] }

/-- Three finite-score records (a tie between the first and the third) fed to the
sort-and-rank stage by the ranking witness. -/
def c3wRecs : List Recommendation :=
  [{ productId := "a", score := some (3/2), ranking := 0, reasoning := [],
     confidence := 0, pros := [], cons := [] },
   { productId := "b", score := some 2, ranking := 0, reasoning := [],
     confidence := 0, pros := [], cons := [] },
   { productId := "c", score := some (3/2), ranking := 0, reasoning := [],
     confidence := 0, pros := [], cons := [] }]

/-- Product resolver of the batch-failure witness: id `B` has no product. -/
def c4GetP : String → Option Product := fun i =>
  if i = "A" then some (sampleProduct "A" 100)
  else if i = "C" then some (sampleProduct "C" 300)
  else none

/-- Analysis resolver of the batch-failure witness: every id resolves, so only
the missing product of `B` causes its exclusion. -/
def c4GetA : String → Option CommentAnalysis := fun i =>
  if i = "A" then some (sampleAnalysis "A" 100 80)
  else if i = "B" then some (sampleAnalysis "B" 50 40)
  else if i = "C" then some (sampleAnalysis "C" 200 150)
  else none

/-- The review aggregate of the unknown-strategy run. -/
def c5Analysis : CommentAnalysis :=
  { productId := "p1", totalComments := 1000, averageRating := 5,
    sentimentDistribution := { positive := 500, negative := 300, neutral := 200 },
    topKeywords := [], qualityIndicators := [], commonIssues := ["overheats"],
    positiveAspects := ["sleek", "fast", "light", "cheap"] }

/-- Product resolver of the unknown-strategy run: id `p1` resolves. -/
def c5GetP : String → Option Product := fun i =>
  if i = "p1" then some (sampleProduct "p1" 100) else none

/-- Analysis resolver of the unknown-strategy run: id `p1` resolves. -/
def c5GetA : String → Option CommentAnalysis := fun i =>
  if i = "p1" then some c5Analysis else none

/-- A search strategy whose maximum-price constraint is set to 0 (falsy in JS). -/
def c6Strategy : SearchStrategy :=
  { type := "fancy", maxPrice := some 0, minPrice := none, minRating := none,
    preferredBrands := none, excludedBrands := none }

/-- A structurally valid candidate with price 5, above the zero price cap. -/
def c6Candidate : RawProduct :=
  { name := "Phone", price := some 5, brand := "BrandX", category := "Electronics",
    rating := none, imageUrl := none, productUrl := none, reviewCount := none,
    sourcePlatform := none, description := none, features := [] }

/-- A review aggregate with no positive aspects and no common issues. -/
def c7Analysis : CommentAnalysis :=
  { productId := "p", totalComments := 10, averageRating := 4,
    sentimentDistribution := { positive := 5, negative := 3, neutral := 2 },
    topKeywords := [], qualityIndicators := [], commonIssues := [],
    positiveAspects := [] }

/-- Product resolver of the duplicate-id witness: ids 1 and 2 resolve. -/
def c10GetP : String → Option Product := fun i =>
  if i = "1" then some (sampleProduct "1" 100)
  else if i = "2" then some (sampleProduct "2" 700)
  else none

/-- Analysis resolver of the duplicate-id witness: ids 1 and 2 resolve. -/
def c10GetA : String → Option CommentAnalysis := fun i =>
  if i = "1" then some (sampleAnalysis "1" 300 200)
  else if i = "2" then some (sampleAnalysis "2" 400 100)
  else none

/-! Helper lemmas about the keyword counter. -/

theorem foldl_add_frequency (l : List TopKeyword) (init : ℚ) :
    l.foldl (fun sum k => sum + k.frequency) init = init + (l.map fun k => k.frequency).sum := by
  induction l generalizing init with
  | nil => simp
  | cons k rest ih => simp [ih]; ring

theorem countKeywordMentions_eq_sum (keywords : List TopKeyword) (targetWords : List String) :
    countKeywordMentions keywords targetWords =
      (keywords.map fun k =>
        if targetWords.any (fun word => jsIncludes (jsToLower k.keyword) word) then
          k.frequency
        else 0).sum := by
  unfold countKeywordMentions
  rw [foldl_add_frequency, zero_add]
  induction keywords with
  | nil => simp
  | cons k rest ih =>
      by_cases h : (targetWords.any fun word => jsIncludes (jsToLower k.keyword) word) = true
      · rw [List.filter_cons, if_pos h, List.map_cons, List.map_cons, List.sum_cons,
          List.sum_cons, if_pos h, ih]
      · rw [List.filter_cons, if_neg h, List.map_cons, List.sum_cons, if_neg h, zero_add, ih]

theorem countKeywordMentions_nonneg {keywords : List TopKeyword} (targetWords : List String)
    (h : ∀ k ∈ keywords, 0 ≤ k.frequency) :
    0 ≤ countKeywordMentions keywords targetWords := by
  rw [countKeywordMentions_eq_sum]
  apply List.sum_nonneg
  intro x hx
  obtain ⟨k, hk, rfl⟩ := List.mem_map.mp hx
  by_cases hm : (targetWords.any fun word => jsIncludes (jsToLower k.keyword) word) = true
  · rw [if_pos hm]
    exact h k hk
  · rw [if_neg hm]

/-! Helper lemmas about the rounding and clamping primitives. -/

theorem round2_nonneg {q : ℚ} (h : 0 ≤ q) : 0 ≤ round2 q := by
  unfold round2 jsRound
  have hfl : (0 : ℤ) ≤ ⌊q * 100 + 1 / 2⌋ := by
    apply Int.le_floor.mpr
    push_cast
    nlinarith
  have : (0 : ℚ) ≤ (⌊q * 100 + 1 / 2⌋ : ℚ) := by exact_mod_cast hfl
  positivity

theorem round2_le_one {q : ℚ} (h : q ≤ 1) : round2 q ≤ 1 := by
  unfold round2 jsRound
  have hfl : ⌊q * 100 + 1 / 2⌋ ≤ 100 := by
    have : ⌊q * 100 + 1 / 2⌋ < 101 := by
      apply Int.floor_lt.mpr
      push_cast
      nlinarith
    omega
  rw [div_le_one (by norm_num)]
  exact_mod_cast hfl.trans (by norm_num)

theorem getBrandScore_bounds (brand : String) :
    0 ≤ getBrandScore brand ∧ getBrandScore brand ≤ 1 := by
  unfold getBrandScore brandScores
  simp only [List.lookup]
  repeat' split
  all_goals simp_all
  all_goals norm_num

/-! Helper lemmas about the stable descending sort. -/

theorem mem_insertByScore {x r : Recommendation} {l : List Recommendation} :
    x ∈ insertByScore r l ↔ x = r ∨ x ∈ l := by
  induction l with
  | nil => simp [insertByScore]
  | cons s rest ih =>
      by_cases h : scoreBefore r s = true
      · simp only [insertByScore, if_pos h, List.mem_cons]
      · simp only [insertByScore, if_neg h, List.mem_cons, ih]
        tauto

theorem insertByScore_perm (r : Recommendation) (l : List Recommendation) :
    insertByScore r l ~ r :: l := by
  induction l with
  | nil => simp [insertByScore]
  | cons s rest ih =>
      by_cases h : scoreBefore r s = true
      · simp [insertByScore, if_pos h]
      · rw [insertByScore, if_neg h]
        exact (ih.cons s).trans (List.Perm.swap r s rest)

theorem foldl_insertByScore_perm (l acc : List Recommendation) :
    l.foldl (fun sorted r => insertByScore r sorted) acc ~ l ++ acc := by
  induction l generalizing acc with
  | nil => simp
  | cons r rest ih =>
      calc rest.foldl (fun sorted x => insertByScore x sorted) (insertByScore r acc)
          ~ rest ++ insertByScore r acc := ih _
        _ ~ rest ++ (r :: acc) := List.Perm.append_left rest (insertByScore_perm r acc)
        _ ~ r :: (rest ++ acc) := List.perm_middle

theorem jsSortByScoreDesc_perm (l : List Recommendation) : jsSortByScoreDesc l ~ l := by
  simpa using foldl_insertByScore_perm l []

theorem pairwise_insertByScore {r : Recommendation} {l : List Recommendation}
    (hl : l.Pairwise fun a b => scoreGeB a b = true)
    (hall : ∀ x ∈ l, x.score ≠ none) (hr : r.score ≠ none) :
    (insertByScore r l).Pairwise fun a b => scoreGeB a b = true := by
  obtain ⟨xr, hxr⟩ := Option.ne_none_iff_exists'.mp hr
  induction l with
  | nil => simp [insertByScore]
  | cons s rest ih =>
      obtain ⟨hs_rest, hrest⟩ := List.pairwise_cons.mp hl
      have hs : s.score ≠ none := hall s (by simp)
      obtain ⟨xs, hxs⟩ := Option.ne_none_iff_exists'.mp hs
      by_cases h : scoreBefore r s = true
      · rw [insertByScore, if_pos h]
        have hsr : xs < xr := by
          simpa [scoreBefore, hxr, hxs] using h
        refine List.pairwise_cons.mpr ⟨?_, hl⟩
        intro t ht
        rcases List.mem_cons.mp ht with rfl | ht
        · simp only [scoreGeB, hxr, hxs]
          simpa using le_of_lt hsr
        · have hts : scoreGeB s t = true := hs_rest t ht
          have htn : t.score ≠ none := hall t (by simp [ht])
          obtain ⟨xt, hxt⟩ := Option.ne_none_iff_exists'.mp htn
          have hle : xt ≤ xs := by simpa [scoreGeB, hxs, hxt] using hts
          simp only [scoreGeB, hxr, hxt]
          simpa using hle.trans (le_of_lt hsr)
      · rw [insertByScore, if_neg h]
        have hrs : xr ≤ xs := by
          have h' : ¬ xs < xr := by simpa [scoreBefore, hxr, hxs] using h
          exact le_of_not_lt h'
        refine List.pairwise_cons.mpr ⟨?_, ?_⟩
        · intro t ht
          rcases mem_insertByScore.mp ht with rfl | ht
          · simp only [scoreGeB, hxs, hxr]
            simpa using hrs
          · exact hs_rest t ht
        · exact ih hrest (fun x hx => hall x (by simp [hx]))

theorem pairwise_foldl_insertByScore (l : List Recommendation) :
    ∀ acc : List Recommendation, (∀ x ∈ l, x.score ≠ none) → (∀ x ∈ acc, x.score ≠ none) →
    (acc.Pairwise fun a b => scoreGeB a b = true) →
    ((l.foldl (fun sorted r => insertByScore r sorted) acc).Pairwise
      fun a b => scoreGeB a b = true) := by
  induction l with
  | nil =>
      intro acc _ _ hp
      simpa using hp
  | cons r rest ih =>
      intro acc hl hacc hp
      refine ih (insertByScore r acc) (fun x hx => hl x (by simp [hx])) ?_ ?_
      · intro x hx
        rcases mem_insertByScore.mp hx with rfl | hx
        · exact hl x (by simp)
        · exact hacc x hx
      · exact pairwise_insertByScore hp hacc (hl r (by simp))

theorem pairwise_jsSortByScoreDesc {l : List Recommendation}
    (hall : ∀ x ∈ l, x.score ≠ none) :
    (jsSortByScoreDesc l).Pairwise fun a b => scoreGeB a b = true :=
  pairwise_foldl_insertByScore l [] hall (by simp) (by simp)

theorem filter_insertByScore {q : ℚ} {r : Recommendation} {l : List Recommendation}
    (hl : l.Pairwise fun a b => scoreGeB a b = true)
    (hall : ∀ x ∈ l, x.score ≠ none) (hr : r.score ≠ none) :
    (insertByScore r l).filter (fun x => decide (x.score = some q)) =
      l.filter (fun x => decide (x.score = some q)) ++
        (if r.score = some q then [r] else []) := by
  obtain ⟨xr, hxr⟩ := Option.ne_none_iff_exists'.mp hr
  induction l with
  | nil =>
      by_cases hq : r.score = some q
      · simp [insertByScore, List.filter_cons, hq]
      · simp [insertByScore, List.filter_cons, hq]
  | cons s rest ih =>
      obtain ⟨hs_rest, hrest⟩ := List.pairwise_cons.mp hl
      have hs : s.score ≠ none := hall s (by simp)
      obtain ⟨xs, hxs⟩ := Option.ne_none_iff_exists'.mp hs
      by_cases h : scoreBefore r s = true
      · have hsr : xs < xr := by
          simpa [scoreBefore, hxr, hxs] using h
        rw [insertByScore, if_pos h]
        by_cases hq : r.score = some q
        · have hxq : xr = q := by rw [hxr] at hq; injection hq
          have hnone : (s :: rest).filter (fun x => decide (x.score = some q)) = [] := by
            rw [List.filter_eq_nil_iff]
            intro t ht hts
            have htq : t.score = some q := by simpa using hts
            rcases List.mem_cons.mp ht with rfl | htr
            · rw [hxs] at htq
              injection htq with he
              rw [he, hxq] at hsr
              exact lt_irrefl q hsr
            · have hts2 : scoreGeB s t = true := hs_rest t htr
              have htn : t.score ≠ none := hall t (by simp [htr])
              obtain ⟨xt, hxt⟩ := Option.ne_none_iff_exists'.mp htn
              have hle : xt ≤ xs := by simpa [scoreGeB, hxs, hxt] using hts2
              rw [hxt] at htq
              injection htq with he
              rw [he] at hle
              rw [hxq] at hsr
              exact absurd hsr (not_lt.mpr hle)
          rw [List.filter_cons, if_pos (by simpa using hq), hnone, if_pos hq,
            List.nil_append]
        · rw [List.filter_cons, if_neg (by simpa using hq), if_neg hq, List.append_nil]
      · rw [insertByScore, if_neg h]
        rw [List.filter_cons, List.filter_cons]
        by_cases hqs : s.score = some q
        · rw [if_pos (by simpa using hqs), if_pos (by simpa using hqs),
            ih hrest (fun x hx => hall x (by simp [hx])), List.cons_append]
        · rw [if_neg (by simpa using hqs), if_neg (by simpa using hqs),
            ih hrest (fun x hx => hall x (by simp [hx]))]

theorem filter_jsSortByScoreDesc {q : ℚ} {l : List Recommendation}
    (hall : ∀ x ∈ l, x.score ≠ none) :
    (jsSortByScoreDesc l).filter (fun x => decide (x.score = some q)) =
      l.filter (fun x => decide (x.score = some q)) := by
  induction l using List.reverseRecOn with
  | nil => rfl
  | append_singleton l r ih =>
      have hl : ∀ x ∈ l, x.score ≠ none := fun x hx => hall x (by simp [hx])
      have hr : r.score ≠ none := hall r (by simp)
      have hstep : jsSortByScoreDesc (l ++ [r]) = insertByScore r (jsSortByScoreDesc l) := by
        unfold jsSortByScoreDesc
        rw [List.foldl_append, List.foldl_cons, List.foldl_nil]
      have hsorted := pairwise_jsSortByScoreDesc hl
      have hall_sorted : ∀ x ∈ jsSortByScoreDesc l, x.score ≠ none := by
        intro x hx
        exact hl x ((jsSortByScoreDesc_perm l).mem_iff.mp hx)
      rw [hstep, filter_insertByScore hsorted hall_sorted hr, ih hl, List.filter_append]
      by_cases hq : r.score = some q
      · rw [if_pos hq, List.filter_cons, if_pos (by simpa using hq), List.filter_nil]
      · rw [if_neg hq, List.filter_cons, if_neg (by simpa using hq), List.filter_nil]

/-! Helper lemmas about the ranking assignment. -/

theorem assignRankingsFrom_map_ranking (i : ℕ) (l : List Recommendation) :
    (assignRankingsFrom i l).map (fun r => r.ranking) = List.range' i l.length := by
  induction l generalizing i with
  | nil => rfl
  | cons r rest ih => simp [assignRankingsFrom, List.range', ih]

theorem assignRankingsFrom_length (i : ℕ) (l : List Recommendation) :
    (assignRankingsFrom i l).length = l.length := by
  induction l generalizing i with
  | nil => rfl
  | cons r rest ih => simp [assignRankingsFrom, ih]

theorem assignRankingsFrom_map_score (i : ℕ) (l : List Recommendation) :
    (assignRankingsFrom i l).map (fun r => r.score) = l.map (fun r => r.score) := by
  induction l generalizing i with
  | nil => rfl
  | cons r rest ih => simp [assignRankingsFrom, ih]

theorem assignRankingsFrom_mem {x : Recommendation} {i : ℕ} {l : List Recommendation}
    (hx : x ∈ assignRankingsFrom i l) :
    ∃ y ∈ l, x.productId = y.productId ∧ x.score = y.score := by
  induction l generalizing i with
  | nil => simp [assignRankingsFrom] at hx
  | cons r rest ih =>
      rw [assignRankingsFrom] at hx
      rcases List.mem_cons.mp hx with rfl | hx
      · exact ⟨r, by simp, rfl, rfl⟩
      · obtain ⟨y, hy, h1, h2⟩ := ih hx
        exact ⟨y, by simp [hy], h1, h2⟩

theorem assignRankingsFrom_filter_map_productId (q : ℚ) (i : ℕ) (l : List Recommendation) :
    ((assignRankingsFrom i l).filter (fun r => decide (r.score = some q))).map
        (fun r => r.productId) =
      (l.filter (fun r => decide (r.score = some q))).map (fun r => r.productId) := by
  induction l generalizing i with
  | nil => rfl
  | cons r rest ih =>
      rw [assignRankingsFrom, List.filter_cons, List.filter_cons]
      by_cases hq : r.score = some q
      · rw [if_pos (by simpa using hq), if_pos (by simpa using hq)]
        simp [ih]
      · rw [if_neg (by simpa using hq), if_neg (by simpa using hq)]
        exact ih _

theorem assignRankingsFrom_countP_productId (pid : String) (i : ℕ) (l : List Recommendation) :
    (assignRankingsFrom i l).countP (fun r => decide (r.productId = pid)) =
      l.countP (fun r => decide (r.productId = pid)) := by
  induction l generalizing i with
  | nil => rfl
  | cons r rest ih => simp [assignRankingsFrom, List.countP_cons, ih]

/-! Helper lemmas about the combined sort-and-rank stage. -/

theorem sortAndRank_length (recs : List Recommendation) :
    (sortAndRank recs).length = recs.length := by
  unfold sortAndRank assignRankings
  rw [assignRankingsFrom_length]
  exact (jsSortByScoreDesc_perm recs).length_eq

theorem sortAndRank_map_ranking (recs : List Recommendation) :
    (sortAndRank recs).map (fun r => r.ranking) =
      List.range' 1 (sortAndRank recs).length := by
  unfold sortAndRank assignRankings
  rw [assignRankingsFrom_map_ranking, assignRankingsFrom_length]

theorem sortAndRank_mem {x : Recommendation} {recs : List Recommendation}
    (hx : x ∈ sortAndRank recs) :
    ∃ y ∈ recs, x.productId = y.productId ∧ x.score = y.score := by
  obtain ⟨y, hy, h1, h2⟩ := assignRankingsFrom_mem hx
  exact ⟨y, (jsSortByScoreDesc_perm recs).mem_iff.mp hy, h1, h2⟩

/-! Helper lemmas about the full ranker. -/

theorem resolveRecommendation_eq (getP : String → Option Product)
    (getA : String → Option CommentAnalysis) (strategy : String) (i : String) :
    (match getP i, getA i with
      | some product, some analysis => some (mkRecommendation i product analysis strategy)
      | _, _ => none) = (getP i).bind fun product =>
        (getA i).map fun analysis => mkRecommendation i product analysis strategy := by
  cases getP i <;> cases getA i <;> rfl

theorem mem_generateRecommendations {r : Recommendation} {productIds : List String}
    {getP : String → Option Product} {getA : String → Option CommentAnalysis}
    {strategy : String}
    (hr : r ∈ generateRecommendations productIds getP getA strategy) :
    ∃ i product analysis, i ∈ productIds ∧ getP i = some product ∧
      getA i = some analysis ∧ r.productId = i ∧
      r.score = calculateStrategyScore product analysis strategy := by
  unfold generateRecommendations at hr
  obtain ⟨y, hy, h1, h2⟩ := sortAndRank_mem hr
  obtain ⟨i, hi, hfi⟩ := List.mem_filterMap.mp hy
  rcases hp : getP i with _ | product
  · rw [hp] at hfi; exact absurd hfi (by simp)
  rcases ha : getA i with _ | analysis
  · rw [hp, ha] at hfi; exact absurd hfi (by simp)
  rw [hp, ha] at hfi
  have hyeq : y = mkRecommendation i product analysis strategy := by
    simpa using hfi.symm
  refine ⟨i, product, analysis, hi, hp, ha, ?_, ?_⟩
  · rw [h1, hyeq]; rfl
  · rw [h2, hyeq]; rfl

theorem filterMap_skip_failed {α β : Type} [DecidableEq α] {f : α → Option β} {b : α}
    (hb : f b = none) (l : List α) :
    l.filterMap f = (l.filter fun i => decide (i ≠ b)).filterMap f := by
  induction l with
  | nil => rfl
  | cons i rest ih =>
      by_cases hib : i = b
      · subst hib
        rw [List.filter_cons, if_neg (by simp), List.filterMap_cons, hb, ih]
      · rw [List.filter_cons, if_pos (by simpa using hib), List.filterMap_cons,
          List.filterMap_cons]
        cases f i <;> rw [ih]

theorem countP_filterMap_resolved {productIds : List String}
    {getP : String → Option Product} {getA : String → Option CommentAnalysis}
    {strategy : String} {pid : String} {product : Product} {analysis : CommentAnalysis}
    (hp : getP pid = some product) (ha : getA pid = some analysis) :
    ((productIds.filterMap fun i =>
        match getP i, getA i with
        | some pr, some an => some (mkRecommendation i pr an strategy)
        | _, _ => none).countP fun r => decide (r.productId = pid)) =
      productIds.count pid := by
  induction productIds with
  | nil => rfl
  | cons i rest ih =>
      rw [List.filterMap_cons, List.count_cons]
      rcases hgp : getP i with _ | pr
      · have hib : ¬ i = pid := by
          intro he; rw [he, hp] at hgp; exact absurd hgp (by simp)
        simp [ih, hib]
      · rcases hga : getA i with _ | an
        · have hib : ¬ i = pid := by
            intro he; rw [he, ha] at hga; exact absurd hga (by simp)
          simp [ih, hib]
        · rw [List.countP_cons, ih]
          by_cases hib : i = pid
          · simp [mkRecommendation, hib]
          · simp [mkRecommendation, hib]

theorem calculateStrategyScore_unknown {product : Product} {analysis : CommentAnalysis}
    {strategy : String}
    (h : strategy ∉ (["fancy", "cost-effective", "price-priority"] : List String)) :
    calculateStrategyScore product analysis strategy = some 0 := by
  simp only [List.mem_cons, List.not_mem_nil, or_false, not_or] at h
  obtain ⟨h1, h2, h3⟩ := h
  unfold calculateStrategyScore
  split
  · exact absurd rfl h1
  · exact absurd rfl h2
  · exact absurd rfl h3
  · rfl

/-! Helper lemmas bounding the strategy scores. -/

theorem min_one_unit {x : ℚ} (hx : 0 ≤ x) : 0 ≤ min x 1 ∧ min x 1 ≤ 1 :=
  ⟨le_min hx zero_le_one, min_le_right x 1⟩

theorem round2_weighted4 {a b c d wa wb wc wd : ℚ}
    (ha : 0 ≤ a ∧ a ≤ 1) (hb : 0 ≤ b ∧ b ≤ 1) (hc : 0 ≤ c ∧ c ≤ 1) (hd : 0 ≤ d ∧ d ≤ 1)
    (hwa : 0 ≤ wa) (hwb : 0 ≤ wb) (hwc : 0 ≤ wc) (hwd : 0 ≤ wd)
    (hsum : wa + wb + wc + wd ≤ 1) :
    0 ≤ round2 (a * wa + b * wb + c * wc + d * wd) ∧
      round2 (a * wa + b * wb + c * wc + d * wd) ≤ 1 := by
  have h1 : a * wa ≤ wa := mul_le_of_le_one_left hwa ha.2
  have h2 : b * wb ≤ wb := mul_le_of_le_one_left hwb hb.2
  have h3 : c * wc ≤ wc := mul_le_of_le_one_left hwc hc.2
  have h4 : d * wd ≤ wd := mul_le_of_le_one_left hwd hd.2
  have h5 : 0 ≤ a * wa := mul_nonneg ha.1 hwa
  have h6 : 0 ≤ b * wb := mul_nonneg hb.1 hwb
  have h7 : 0 ≤ c * wc := mul_nonneg hc.1 hwc
  have h8 : 0 ≤ d * wd := mul_nonneg hd.1 hwd
  exact ⟨round2_nonneg (by linarith), round2_le_one (by linarith)⟩

theorem round2_weighted3 {a b c wa wb wc : ℚ}
    (ha : 0 ≤ a ∧ a ≤ 1) (hb : 0 ≤ b ∧ b ≤ 1) (hc : 0 ≤ c ∧ c ≤ 1)
    (hwa : 0 ≤ wa) (hwb : 0 ≤ wb) (hwc : 0 ≤ wc)
    (hsum : wa + wb + wc ≤ 1) :
    0 ≤ round2 (a * wa + b * wb + c * wc) ∧ round2 (a * wa + b * wb + c * wc) ≤ 1 := by
  have h1 : a * wa ≤ wa := mul_le_of_le_one_left hwa ha.2
  have h2 : b * wb ≤ wb := mul_le_of_le_one_left hwb hb.2
  have h3 : c * wc ≤ wc := mul_le_of_le_one_left hwc hc.2
  have h5 : 0 ≤ a * wa := mul_nonneg ha.1 hwa
  have h6 : 0 ≤ b * wb := mul_nonneg hb.1 hwb
  have h7 : 0 ≤ c * wc := mul_nonneg hc.1 hwc
  exact ⟨round2_nonneg (by linarith), round2_le_one (by linarith)⟩

theorem calculateFancyScore_bounds (product : Product) (analysis : CommentAnalysis)
    (hk : ∀ k ∈ analysis.topKeywords, 0 ≤ k.frequency)
    (hqi : ∀ qi ∈ analysis.qualityIndicators, 0 ≤ qi.mentions) :
    0 ≤ calculateFancyScore product analysis ∧ calculateFancyScore product analysis ≤ 1 := by
  have hprem : 0 ≤ countKeywordMentions analysis.topKeywords
      ["premium", "luxury", "high-end", "premium quality"] := countKeywordMentions_nonneg _ hk
  have hdes : 0 ≤ countKeywordMentions analysis.topKeywords
      ["design", "beautiful", "elegant", "stylish"] := countKeywordMentions_nonneg _ hk
  have hqual : 0 ≤ (match analysis.qualityIndicators with
      | [] => (0 : ℚ)
      | q :: _ => q.mentions / 500) := by
    rcases hq : analysis.qualityIndicators with _ | ⟨q0, qrest⟩
    · norm_num
    · have h0 : 0 ≤ q0.mentions := hqi q0 (by rw [hq]; simp)
      simpa using by positivity
  simp only [calculateFancyScore]
  apply round2_weighted4
  · constructor
    · exact (getBrandScore_bounds product.brand).1
    · exact (getBrandScore_bounds product.brand).2
  · exact min_one_unit (by positivity)
  · exact min_one_unit hqual
  · exact min_one_unit (by positivity)
  all_goals norm_num

theorem calculatePricePriorityScore_bounds (product : Product) (analysis : CommentAnalysis)
    (hprice : 0 ≤ product.price) (hr0 : 0 ≤ analysis.averageRating) :
    0 ≤ calculatePricePriorityScore product analysis ∧
      calculatePricePriorityScore product analysis ≤ 1 := by
  simp only [calculatePricePriorityScore]
  apply round2_weighted3
  · constructor
    · exact le_max_left 0 _
    · apply max_le (by norm_num)
      rw [div_le_one (by norm_num)]
      linarith
  · by_cases h : analysis.averageRating ≥ 4
    · rw [if_pos h]; norm_num
    · rw [if_neg h]
      constructor
      · positivity
      · rw [div_le_one (by norm_num)]
        push_neg at h
        linarith
  · constructor
    · exact le_max_left 0 _
    · apply max_le (by norm_num)
      have : (0 : ℚ) ≤ (analysis.commonIssues.length : ℚ) := by positivity
      linarith [div_nonneg this (by norm_num : (0:ℚ) ≤ 10)]
  all_goals norm_num

theorem calculateCostEffectiveScore_bounds (product : Product) (analysis : CommentAnalysis)
    (hprice : 0 ≤ product.price)
    (hr0 : 0 ≤ analysis.averageRating) (hr5 : analysis.averageRating ≤ 5)
    (hk : ∀ k ∈ analysis.topKeywords, 0 ≤ k.frequency)
    (hpos : 0 ≤ analysis.sentimentDistribution.positive)
    (hpt : analysis.sentimentDistribution.positive ≤ analysis.totalComments)
    (ht : 0 < analysis.totalComments) :
    ∃ q, calculateCostEffectiveScore product analysis = some q ∧ 0 ≤ q ∧ q ≤ 1 := by
  have hdur : 0 ≤ countKeywordMentions analysis.topKeywords
      ["durable", "long-lasting", "reliable", "sturdy"] := countKeywordMentions_nonneg _ hk
  have hworth : 0 ≤ countKeywordMentions analysis.topKeywords
      ["worth it", "good value", "great value", "worth every penny"] :=
    countKeywordMentions_nonneg _ hk
  simp only [calculateCostEffectiveScore, jsDiv, if_neg ht.ne', Option.map_some]
  refine ⟨_, rfl, ?_⟩
  apply round2_weighted4
  · constructor
    · have h1 : (0:ℚ) ≤ max 0 ((2000 - product.price) / 2000) := le_max_left 0 _
      positivity
    · have h1 : max 0 ((2000 - product.price) / 2000) ≤ 1 := by
        apply max_le (by norm_num)
        rw [div_le_one (by norm_num)]
        linarith
      have h2 : analysis.averageRating / 5 ≤ 1 := by
        rw [div_le_one (by norm_num)]
        linarith
      rw [div_le_one (by norm_num)]
      linarith
  · exact min_one_unit (by positivity)
  · exact min_one_unit (by positivity)
  · constructor
    · exact div_nonneg hpos ht.le
    · rw [div_le_one ht]
      exact hpt
  all_goals norm_num

/-! The claims. -/

/-- Claim C1, counterexample: a valid input (price 0, rating 5, all counts
non-negative) whose positive sentiment count (10) exceeds its total comment count
(1) makes the cost-effective Strategy Scorer return 1.9, outside [0,1], because
the long-term satisfaction ratio is not clamped before weighting. -/
theorem c1_score_exceeds_unit_interval :
    ValidInputs c1Product c1Analysis ∧
    calculateStrategyScore c1Product c1Analysis "cost-effective" = some (19/10) ∧
    ¬ ((19 : ℚ)/10 ≤ 1) := by
  refine ⟨?_, by decide, by norm_num⟩
  unfold ValidInputs
  refine ⟨by decide, by decide, by decide, by decide, by decide, by decide, by decide⟩

/-- Claim C1 (amended): the sub-score weights of each variant sum to 1.0, and for
every input with non-negative price, rating in [0,5] and non-negative counts the
fancy and price-priority scores lie in [0,1]; the cost-effective score is a finite
number in [0,1] provided additionally the positive sentiment count is at most
totalComments and totalComments is positive.  (Without that proviso the claim
fails: the positive sentiment ratio is the one sub-score that is not clamped, see
the counterexample; and totalComments = 0 makes the score non-finite.) -/
theorem c1_weights_sum_and_score_bounds (product : Product) (analysis : CommentAnalysis)
    (h : ValidInputs product analysis) :
    fancyWeights.sum = 1 ∧ costEffectiveWeights.sum = 1 ∧ pricePriorityWeights.sum = 1 ∧
    (0 ≤ calculateFancyScore product analysis ∧ calculateFancyScore product analysis ≤ 1) ∧
    (0 ≤ calculatePricePriorityScore product analysis ∧
      calculatePricePriorityScore product analysis ≤ 1) ∧
    (analysis.sentimentDistribution.positive ≤ analysis.totalComments →
      0 < analysis.totalComments →
      ∃ q, calculateCostEffectiveScore product analysis = some q ∧ 0 ≤ q ∧ q ≤ 1) := by
  obtain ⟨hp, hr0, hr5, ht0, hpos, hk, hq⟩ := h
  refine ⟨by decide, by decide, by decide, ?_, ?_, ?_⟩
  · exact calculateFancyScore_bounds product analysis hk hq
  · exact calculatePricePriorityScore_bounds product analysis hp hr0
  · intro hpt ht
    exact calculateCostEffectiveScore_bounds product analysis hp hr0 hr5 hk hpos hpt ht

/-- Witness for the amended claim C1 at a concrete valid input. -/
theorem c1_weights_sum_and_score_bounds_witness :
    ValidInputs w1Product w1Analysis ∧
    (fancyWeights.sum = 1 ∧ costEffectiveWeights.sum = 1 ∧ pricePriorityWeights.sum = 1 ∧
    (0 ≤ calculateFancyScore w1Product w1Analysis ∧
      calculateFancyScore w1Product w1Analysis ≤ 1) ∧
    (0 ≤ calculatePricePriorityScore w1Product w1Analysis ∧
      calculatePricePriorityScore w1Product w1Analysis ≤ 1) ∧
    (w1Analysis.sentimentDistribution.positive ≤ w1Analysis.totalComments →
      0 < w1Analysis.totalComments →
      ∃ q, calculateCostEffectiveScore w1Product w1Analysis = some q ∧ 0 ≤ q ∧ q ≤ 1)) := by
  have hv : ValidInputs w1Product w1Analysis := by
    unfold ValidInputs
    refine ⟨by decide, by decide, by decide, by decide, by decide, by decide, by decide⟩
  exact ⟨hv, c1_weights_sum_and_score_bounds w1Product w1Analysis hv⟩

/-- Claim C2, evaluation at the failing input: with totalComments = 0 the
cost-effective scorer performs the unguarded division positive/totalComments; in
JS the result (0/0 = NaN) is non-finite and propagates, so the score is not the
number 0.00 the spec prescribes.  (No exception is thrown in JS, but the ratio is
NaN rather than 0.) -/
theorem c2_zero_comments_score_not_finite :
    jsDiv c2Analysis.sentimentDistribution.positive c2Analysis.totalComments = none ∧
    calculateCostEffectiveScore c2Product c2Analysis = none ∧
    calculateStrategyScore c2Product c2Analysis "cost-effective" = none := by
  exact ⟨by decide, by decide, by decide⟩

/-- Claim C7, evaluation at the failing input: `slice(0, 3) || fallback` never
falls back because an empty JS array is truthy, so for a ReviewAggregate with no
positive aspects and no common issues the generated pros and cons are empty
lists, not the generic fallback lists the spec prescribes; away from the empty
case the pros and cons are the first 3 and first 2 entries. -/
theorem c7_empty_aspects_no_fallback :
    generatePros c7Analysis = [] ∧ generateCons c7Analysis = [] ∧
    generatePros c7Analysis ≠ ["Good overall quality", "Reliable performance"] ∧
    generateCons c7Analysis ≠ ["Minor issues reported"] ∧
    (∀ analysis : CommentAnalysis,
      generatePros analysis = analysis.positiveAspects.take 3 ∧
      generateCons analysis = analysis.commonIssues.take 2) :=
  ⟨rfl, rfl, by decide, by decide, fun _ => ⟨rfl, rfl⟩⟩

/-- Claim C9: in the keyword-based sub-scores a keyword entry contributes its
full frequency exactly once whenever its lower-cased text contains some target
word as a substring, and only once even when several target words match — the
count equals the sum, over all entries, of the frequency gated by the containment
test.  The second conjunct shows a single entry matching two target words at once
still contributing its frequency once. -/
theorem c9_keyword_containment_counted_once (keywords : List TopKeyword)
    (targetWords : List String) :
    countKeywordMentions keywords targetWords =
      (keywords.map fun k =>
        if targetWords.any (fun word => jsIncludes (jsToLower k.keyword) word) then
          k.frequency
        else 0).sum ∧
    countKeywordMentions [{ keyword := "Premium Luxury Feel", frequency := 7 }]
      ["premium", "luxury"] = 7 :=
  ⟨countKeywordMentions_eq_sum keywords targetWords, by decide⟩

theorem pairwise_scoreGeB_assignRankingsFrom {i : ℕ} {l : List Recommendation}
    (h : l.Pairwise fun a b => scoreGeB a b = true) :
    (assignRankingsFrom i l).Pairwise fun a b => scoreGeB a b = true := by
  induction l generalizing i with
  | nil => exact List.Pairwise.nil
  | cons r rest ih =>
      obtain ⟨hr, hrest⟩ := List.pairwise_cons.mp h
      rw [assignRankingsFrom]
      refine List.pairwise_cons.mpr ⟨?_, ih hrest⟩
      intro t ht
      obtain ⟨y, hy, hpid, hsc⟩ := assignRankingsFrom_mem ht
      have hge : scoreGeB r y = true := hr y hy
      rcases hrs : r.score with _ | xr <;> rcases hys : y.score with _ | xy <;>
        simp_all [scoreGeB]

/-- Claim C3, counterexample: a ranker input reaching the cost-effective scorer
with a zero-comment aggregate yields a non-finite (NaN) score which the sort
comparator treats as equal to everything, so the output places the non-finite
score at ranking 1 above a finite score 0.5 at ranking 2 — the scores along the
ranking are not a non-increasing sequence of numbers. -/
theorem c3_nan_breaks_monotonicity :
    generateRecommendations ["n", "f"] c3GetP c3GetA "cost-effective" =
      [c3OutN, c3OutF] ∧
    c3OutN.score = none ∧ c3OutF.score = some (1/2) ∧
    c3OutN.ranking = 1 ∧ c3OutF.ranking = 2 ∧
    scoreGeB c3OutN c3OutF = false := by
  refine ⟨by decide, by decide, by decide, by decide, by decide, by decide⟩

/-- Claim C3 (amended): whenever every score fed to the sort-and-rank stage is a
finite number, the output rankings are exactly the dense sequence 1..N with N the
output length (equal to the input length), scores are non-increasing along the
ranking, and records with equal scores keep their relative input order.  (As
stated, the claim fails when a score is NaN, which the cost-effective variant
produces for a zero-comment aggregate, see the counterexample.) -/
theorem c3_dense_sorted_stable_ranking (recs : List Recommendation)
    (h : ∀ r ∈ recs, r.score ≠ none) :
    (sortAndRank recs).length = recs.length ∧
    (sortAndRank recs).map (fun r => r.ranking) = List.range' 1 recs.length ∧
    ((sortAndRank recs).Pairwise fun a b => scoreGeB a b = true) ∧
    ∀ q : ℚ, ((sortAndRank recs).filter fun r => decide (r.score = some q)).map
        (fun r => r.productId) =
      (recs.filter fun r => decide (r.score = some q)).map (fun r => r.productId) := by
  refine ⟨sortAndRank_length recs, ?_, ?_, ?_⟩
  · rw [sortAndRank_map_ranking, sortAndRank_length]
  · exact pairwise_scoreGeB_assignRankingsFrom (pairwise_jsSortByScoreDesc h)
  · intro q
    unfold sortAndRank assignRankings
    rw [assignRankingsFrom_filter_map_productId, filter_jsSortByScoreDesc h]

/-- Witness for the amended claim C3 at a concrete three-record input with a tie. -/
theorem c3_dense_sorted_stable_ranking_witness :
    (∀ r ∈ c3wRecs, r.score ≠ none) ∧
    ((sortAndRank c3wRecs).length = c3wRecs.length ∧
    (sortAndRank c3wRecs).map (fun r => r.ranking) = List.range' 1 c3wRecs.length ∧
    ((sortAndRank c3wRecs).Pairwise fun a b => scoreGeB a b = true) ∧
    ∀ q : ℚ, ((sortAndRank c3wRecs).filter fun r => decide (r.score = some q)).map
        (fun r => r.productId) =
      (c3wRecs.filter fun r => decide (r.score = some q)).map (fun r => r.productId)) :=
  ⟨by decide, c3_dense_sorted_stable_ranking c3wRecs (by decide)⟩

/-- Claim C10: a product id occurring k times in the ranker input with both
resolutions succeeding yields k separate records for that id (no deduplication),
and all ranking values of the output are pairwise distinct. -/
theorem c10_duplicate_ids_kept (productIds : List String)
    (getP : String → Option Product) (getA : String → Option CommentAnalysis)
    (strategy : String) (pid : String) (product : Product) (analysis : CommentAnalysis)
    (hp : getP pid = some product) (ha : getA pid = some analysis) :
    ((generateRecommendations productIds getP getA strategy).countP
        fun r => decide (r.productId = pid)) = productIds.count pid ∧
    ((generateRecommendations productIds getP getA strategy).map
        fun r => r.ranking).Nodup := by
  constructor
  · unfold generateRecommendations sortAndRank assignRankings
    rw [assignRankingsFrom_countP_productId]
    rw [(jsSortByScoreDesc_perm _).countP_eq]
    exact countP_filterMap_resolved hp ha
  · have hmap : (generateRecommendations productIds getP getA strategy).map
        (fun r => r.ranking) =
        List.range' 1 (generateRecommendations productIds getP getA strategy).length := by
      unfold generateRecommendations
      exact sortAndRank_map_ranking _
    rw [hmap]
    exact List.nodup_range' _ _

/-- Witness for claim C10: the id 1 occurs twice in a three-element input and
both duplicates are kept, with pairwise distinct rankings. -/
theorem c10_duplicate_ids_kept_witness :
    c10GetP "1" = some (sampleProduct "1" 100) ∧
    c10GetA "1" = some (sampleAnalysis "1" 300 200) ∧
    (((generateRecommendations ["1", "1", "2"] c10GetP c10GetA "fancy").countP
        fun r => decide (r.productId = "1")) = (["1", "1", "2"] : List String).count "1" ∧
    ((generateRecommendations ["1", "1", "2"] c10GetP c10GetA "fancy").map
        fun r => r.ranking).Nodup) :=
  ⟨by decide, by decide,
    c10_duplicate_ids_kept ["1", "1", "2"] c10GetP c10GetA "fancy" "1"
      (sampleProduct "1" 100) (sampleAnalysis "1" 300 200) (by decide) (by decide)⟩

/-- Claim C4: when some id fails to resolve (product or review aggregate), the
ranker output equals the output for the input list with that id removed, contains
no reference to the failed id, and is still ranked densely from 1; an empty input
list yields an empty output list. -/
theorem c4_failed_resolution_skipped (productIds : List String)
    (getP : String → Option Product) (getA : String → Option CommentAnalysis)
    (strategy : String) (failedId : String)
    (hfail : getP failedId = none ∨ getA failedId = none) :
    generateRecommendations productIds getP getA strategy =
      generateRecommendations (productIds.filter fun i => decide (i ≠ failedId))
        getP getA strategy ∧
    (∀ r ∈ generateRecommendations productIds getP getA strategy,
      r.productId ≠ failedId) ∧
    (generateRecommendations productIds getP getA strategy).map (fun r => r.ranking) =
      List.range' 1 (generateRecommendations productIds getP getA strategy).length ∧
    generateRecommendations ([] : List String) getP getA strategy = [] := by
  have hfnone : (match getP failedId, getA failedId with
      | some product, some analysis =>
          some (mkRecommendation failedId product analysis strategy)
      | _, _ => none) = none := by
    rw [resolveRecommendation_eq]
    rcases hfail with hf | hf
    · rw [hf]; rfl
    · rw [hf]
      cases getP failedId <;> rfl
  refine ⟨?_, ?_, ?_, rfl⟩
  · unfold generateRecommendations
    exact congrArg sortAndRank
      (@filterMap_skip_failed String Recommendation _
        (fun i => match getP i, getA i with
          | some product, some analysis =>
              some (mkRecommendation i product analysis strategy)
          | _, _ => none) failedId hfnone productIds)
  · intro r hr
    obtain ⟨i, product, analysis, _, hp, ha, hpid, _⟩ := mem_generateRecommendations hr
    rw [hpid]
    intro he
    rw [he] at hp ha
    rcases hfail with hf | hf
    · rw [hf] at hp; exact Option.noConfusion hp
    · rw [hf] at ha; exact Option.noConfusion ha
  · unfold generateRecommendations
    exact sortAndRank_map_ranking _

/-- Witness for claim C4: in the batch A, B, C the id B has no product; A and C
are still scored and ranked 1 and 2 with no reference to B, and the empty batch
yields the empty output. -/
theorem c4_failed_resolution_skipped_witness :
    (c4GetP "B" = none ∨ c4GetA "B" = none) ∧
    (generateRecommendations ["A", "B", "C"] c4GetP c4GetA "price-priority" =
      generateRecommendations ((["A", "B", "C"] : List String).filter
        fun i => decide (i ≠ "B")) c4GetP c4GetA "price-priority" ∧
    (∀ r ∈ generateRecommendations ["A", "B", "C"] c4GetP c4GetA "price-priority",
      r.productId ≠ "B") ∧
    (generateRecommendations ["A", "B", "C"] c4GetP c4GetA "price-priority").map
        (fun r => r.ranking) =
      List.range' 1
        (generateRecommendations ["A", "B", "C"] c4GetP c4GetA "price-priority").length ∧
    generateRecommendations ([] : List String) c4GetP c4GetA "price-priority" = []) :=
  ⟨Or.inl (by decide),
    c4_failed_resolution_skipped ["A", "B", "C"] c4GetP c4GetA "price-priority" "B"
      (Or.inl (by decide))⟩

/-- Claim C5, counterexample: the request with the unknown strategy variant
`speed-priority` and one resolvable product id is NOT rejected with a validation
error — the controller only rejects a falsy strategy — and one Recommendation
record is produced, scored 0 by the default branch of the scorer. -/
theorem c5_unknown_strategy_not_rejected :
    ("speed-priority" ∉ (["fancy", "cost-effective", "price-priority"] : List String)) ∧
    (getRecommendations { products := some ["p1"], strategy := "speed-priority" }
        c5GetP c5GetA).toOption =
      some [{ productId := "p1", score := some 0, ranking := 1, reasoning := [],
              confidence := 1, pros := ["sleek", "fast", "light"],
              cons := ["overheats"] }] := by
  refine ⟨by decide, by decide⟩

/-- Claim C5 (amended): the controller rejects a missing or empty (falsy)
strategy with a validation error before any scoring, but a request whose strategy
is a non-empty string outside the three variants is not rejected: scoring
proceeds and every resolved product receives score 0 from the default branch of
`calculateStrategyScore`, so Recommendation records ARE produced. -/
theorem c5_strategy_validation_amended (req : RecommendationRequest)
    (ids : List String) (getP : String → Option Product)
    (getA : String → Option CommentAnalysis)
    (hprod : req.products = some ids) (hne : ids ≠ [])
    (hunknown : req.strategy ∉ (["fancy", "cost-effective", "price-priority"] :
      List String)) :
    (req.strategy = "" →
      getRecommendations req getP getA = Except.error "Strategy is required") ∧
    (req.strategy ≠ "" →
      getRecommendations req getP getA =
        Except.ok (generateRecommendations ids getP getA req.strategy) ∧
      ∀ r ∈ generateRecommendations ids getP getA req.strategy, r.score = some 0) := by
  have hempty : ids.isEmpty = false := by
    cases ids with
    | nil => exact absurd rfl hne
    | cons a l => rfl
  constructor
  · intro hs
    unfold getRecommendations
    rw [hprod]
    simp [hempty, hs]
  · intro hs
    constructor
    · unfold getRecommendations
      rw [hprod]
      simp [hempty, hs]
    · intro r hr
      obtain ⟨i, product, analysis, _, _, _, _, hscore⟩ :=
        mem_generateRecommendations hr
      rw [hscore]
      exact calculateStrategyScore_unknown hunknown

/-- Witness for the amended claim C5 at a concrete request. -/
theorem c5_strategy_validation_amended_witness :
    ({ products := some ["p1"], strategy := "speed-priority" } :
        RecommendationRequest).products = some ["p1"] ∧
    (["p1"] : List String) ≠ [] ∧
    ("speed-priority" ∉ (["fancy", "cost-effective", "price-priority"] : List String)) ∧
    ((("speed-priority" : String) = "" →
      getRecommendations { products := some ["p1"], strategy := "speed-priority" }
        c5GetP c5GetA = Except.error "Strategy is required") ∧
    (("speed-priority" : String) ≠ "" →
      getRecommendations { products := some ["p1"], strategy := "speed-priority" }
        c5GetP c5GetA =
        Except.ok (generateRecommendations ["p1"] c5GetP c5GetA "speed-priority") ∧
      ∀ r ∈ generateRecommendations ["p1"] c5GetP c5GetA "speed-priority",
        r.score = some 0)) :=
  ⟨rfl, by decide, by decide,
    c5_strategy_validation_amended
      { products := some ["p1"], strategy := "speed-priority" } ["p1"] c5GetP c5GetA
      rfl (by decide) (by decide)⟩

theorem numTruthy_iff {o : Option ℚ} : numTruthy o = true ↔ ∃ v, o = some v ∧ v ≠ 0 := by
  cases o <;> simp [numTruthy]

theorem numOrZero_some (v : ℚ) : numOrZero (some v) = v := rfl

/-- Claim C6, counterexample: under a strategy whose maxPrice is set to 0, a
structurally valid candidate with price 5 survives the source filter — the
truthiness guard `strategy.maxPrice && ...` skips a zero bound — although it
violates the claim's "price ≤ maxPrice if set". -/
theorem c6_zero_max_price_skipped :
    survivesFilter c6Strategy c6Candidate = true ∧
    ClaimShapeValid c6Candidate ∧
    ¬ ClaimMeetsConstraints c6Strategy c6Candidate := by
  refine ⟨by decide, ?_, ?_⟩
  · unfold ClaimShapeValid
    refine ⟨by decide, by decide, by decide, by decide, by decide, ?_⟩
    intro r hr
    exact absurd hr (by simp [c6Candidate])
  · intro hc
    exact absurd (hc.1 0 rfl) (by decide)

/-- Claim C6 (amended): a candidate survives `validateAndFilterProducts` exactly
when it passes the claim's shape validation and satisfies every set constraint,
with the one amendment that the maxPrice bound applies only when maxPrice is set
AND nonzero (a zero maxPrice is falsy in JS and the check is skipped, see the
counterexample); with no constraints set, the survivors are exactly the
structurally valid candidates, normalized, in unchanged relative order. -/
theorem c6_filter_characterization (strategy : SearchStrategy) (product : RawProduct)
    (products : List RawProduct) (t : String) :
    (survivesFilter strategy product = true ↔
      ClaimShapeValid product ∧ ClaimMeetsConstraintsTruthy strategy product) ∧
    validateAndFilterProducts products (emptySearchStrategy t) =
      ((products.filter fun p => survivesFilter (emptySearchStrategy t) p).map
        normalizeProduct) ∧
    ((products.filter fun p => survivesFilter (emptySearchStrategy t) p).Sublist
      products) ∧
    (survivesFilter (emptySearchStrategy t) product = true ↔
      ClaimShapeValid product) := by
  have main : ∀ s : SearchStrategy, survivesFilter s product = true ↔
      ClaimShapeValid product ∧ ClaimMeetsConstraintsTruthy s product := by
    intro s
    unfold survivesFilter
    split_ifs with h1 h2 h3 h4 h5 h6 h7 h8
    -- the eight rejection branches: the claim side fails as well
    · constructor
      · intro hff; exact absurd hff (by simp)
      · rintro ⟨⟨hn, hb, hc, hpt, hp0, hrat⟩, hmax, hmin, hminr, hpref, hexcl⟩
        rcases h1 with h | h | h | h
        · exact absurd h hn
        · rw [hpt] at h; exact Bool.noConfusion h
        · exact absurd h hb
        · exact absurd h hc
    · constructor
      · intro hff; exact absurd hff (by simp)
      · rintro ⟨⟨hn, hb, hc, hpt, hp0, hrat⟩, hmax, hmin, hminr, hpref, hexcl⟩
        exact absurd h2 (not_lt.mpr hp0)
    · constructor
      · intro hff; exact absurd hff (by simp)
      · rintro ⟨⟨hn, hb, hc, hpt, hp0, hrat⟩, hmax, hmin, hminr, hpref, hexcl⟩
        obtain ⟨m, hm, hm0⟩ := numTruthy_iff.mp h3.1
        have hle := hmax m hm hm0
        have hlt : m < numOrZero product.price := by
          have := h3.2
          rw [hm, numOrZero_some] at this
          exact this
        exact absurd hlt (not_lt.mpr hle)
    · constructor
      · intro hff; exact absurd hff (by simp)
      · rintro ⟨⟨hn, hb, hc, hpt, hp0, hrat⟩, hmax, hmin, hminr, hpref, hexcl⟩
        obtain ⟨m, hm, hm0⟩ := numTruthy_iff.mp h4.1
        have hle := hmin m hm
        have hlt : numOrZero product.price < m := by
          have := h4.2
          rw [hm, numOrZero_some] at this
          exact this
        exact absurd hlt (not_lt.mpr hle)
    · constructor
      · intro hff; exact absurd hff (by simp)
      · rintro ⟨⟨hn, hb, hc, hpt, hp0, hrat⟩, hmax, hmin, hminr, hpref, hexcl⟩
        obtain ⟨r, hr, hr0⟩ := numTruthy_iff.mp h5.1
        obtain ⟨hge, hle⟩ := hrat r hr
        have hval : numOrZero product.rating = r := by rw [hr, numOrZero_some]
        rcases h5.2 with h | h <;> rw [hval] at h
        · exact absurd h (not_lt.mpr hge)
        · exact absurd h (not_lt.mpr hle)
    · constructor
      · intro hff; exact absurd hff (by simp)
      · rintro ⟨⟨hn, hb, hc, hpt, hp0, hrat⟩, hmax, hmin, hminr, hpref, hexcl⟩
        obtain ⟨m, hm, hm0⟩ := numTruthy_iff.mp h6.1
        have hle := hminr m hm
        have hlt : numOrZero product.rating < m := by
          have := h6.2
          rw [hm, numOrZero_some] at this
          exact this
        exact absurd hlt (not_lt.mpr hle)
    · constructor
      · intro hff; exact absurd hff (by simp)
      · rintro ⟨⟨hn, hb, hc, hpt, hp0, hrat⟩, hmax, hmin, hminr, hpref, hexcl⟩
        rcases hpb : s.preferredBrands with _ | l
        · rw [hpb] at h7
          exact absurd rfl h7.1
        · rw [hpb] at h7
          have hmem := hpref l hpb (by simpa using h7.1)
          exact absurd hmem (by simpa using h7.2)
    · constructor
      · intro hff; exact absurd hff (by simp)
      · rintro ⟨⟨hn, hb, hc, hpt, hp0, hrat⟩, hmax, hmin, hminr, hpref, hexcl⟩
        rcases heb : s.excludedBrands with _ | l
        · rw [heb] at h8
          exact absurd rfl h8.1
        · rw [heb] at h8
          have hmem : product.brand ∈ l := by simpa using h8.2
          exact absurd hmem (hexcl l heb (by simpa using h8.1))
    -- the surviving branch: every claim-side condition holds
    · constructor
      · intro _
        push_neg at h1
        obtain ⟨hn, hptf, hb, hc⟩ := h1
        have hpt : numTruthy product.price = true := by
          cases hv : numTruthy product.price
          · exact absurd hv hptf
          · rfl
        have hp0 : 0 ≤ numOrZero product.price := not_lt.mp h2
        have hrat : ∀ r, product.rating = some r → 0 ≤ r ∧ r ≤ 5 := by
          intro r hr
          by_cases hr0 : r = 0
          · subst hr0
            exact ⟨le_refl 0, by norm_num⟩
          · have htr : numTruthy product.rating = true := numTruthy_iff.mpr ⟨r, hr, hr0⟩
            have hnb : ¬ (numOrZero product.rating < 0 ∨
                5 < numOrZero product.rating) := fun hbad => h5 ⟨htr, hbad⟩
            push_neg at hnb
            rw [hr, numOrZero_some] at hnb
            exact hnb
        have hrat0 : 0 ≤ numOrZero product.rating := by
          rcases hor : product.rating with _ | r
          · exact le_refl 0
          · rw [numOrZero_some]
            exact (hrat r hor).1
        refine ⟨⟨hn, hb, hc, hpt, hp0, hrat⟩, ?_, ?_, ?_, ?_, ?_⟩
        · intro m hm hm0
          have htr : numTruthy s.maxPrice = true := numTruthy_iff.mpr ⟨m, hm, hm0⟩
          have hnb : ¬ (numOrZero s.maxPrice < numOrZero product.price) :=
            fun hbad => h3 ⟨htr, hbad⟩
          rw [hm, numOrZero_some] at hnb
          exact not_lt.mp hnb
        · intro m hm
          by_cases hm0 : m = 0
          · subst hm0
            exact hp0
          · have htr : numTruthy s.minPrice = true := numTruthy_iff.mpr ⟨m, hm, hm0⟩
            have hnb : ¬ (numOrZero product.price < numOrZero s.minPrice) :=
              fun hbad => h4 ⟨htr, hbad⟩
            rw [hm, numOrZero_some] at hnb
            exact not_lt.mp hnb
        · intro m hm
          by_cases hm0 : m = 0
          · subst hm0
            exact hrat0
          · have htr : numTruthy s.minRating = true := numTruthy_iff.mpr ⟨m, hm, hm0⟩
            have hnb : ¬ (numOrZero product.rating < numOrZero s.minRating) :=
              fun hbad => h6 ⟨htr, hbad⟩
            rw [hm, numOrZero_some] at hnb
            exact not_lt.mp hnb
        · intro l hl hlne
          have h7s : ¬ (l ≠ [] ∧ product.brand ∉ l) := by
            rw [hl] at h7
            simpa using h7
          rcases not_and_or.mp h7s with h | h
          · exact absurd hlne h
          · exact not_not.mp h
        · intro l hl hlne
          have h8s : ¬ (l ≠ [] ∧ product.brand ∈ l) := by
            rw [hl] at h8
            simpa using h8
          intro hmem
          exact h8s ⟨hlne, hmem⟩
      · intro _
        rfl
  have htriv : ClaimMeetsConstraintsTruthy (emptySearchStrategy t) product := by
    unfold ClaimMeetsConstraintsTruthy emptySearchStrategy
    exact ⟨fun m hm => absurd hm (by simp), fun m hm => absurd hm (by simp),
      fun m hm => absurd hm (by simp), fun l hl => absurd hl (by simp),
      fun l hl => absurd hl (by simp)⟩
  refine ⟨main strategy, rfl, List.filter_sublist _, ?_⟩
  exact (main (emptySearchStrategy t)).trans (and_iff_left htriv)

end Autoshoper

